import Mathlib

/-!
Verification development for the workbook-to-structured-quote extraction
engine (`src/app/api/convert/route.ts`).  The TypeScript functions are
shallowly embedded as executable Lean definitions: sheets are lists of rows
of cells, JavaScript `Map`s are insertion-ordered association lists,
JavaScript numbers are rationals, and fallible numeric parsing returns
`Option`.  `JSON.stringify` is modelled by an explicit `Json` tree in which
an `undefined` object field is an omitted key while `null` is a present key.
-/

set_option maxHeartbeats 1000000

/-- Whitespace characters recognised by JavaScript regular expressions and
by string trimming (the ASCII subset, which is all the workbook code uses). -/
def isJsWs (c : Char) : Bool :=
  c = ' ' || c = '\t' || c = '\n' || c = '\r' || c = (Char.ofNat 11) || c = (Char.ofNat 12)

/-- Model of JavaScript String.prototype.trim. -/
def jsTrim (s : String) : String :=
  String.mk (((s.toList.dropWhile isJsWs).reverse.dropWhile isJsWs).reverse)

/-- Model of String.prototype.toLowerCase (ASCII range). -/
def toLowerStr (s : String) : String :=
  String.mk (s.toList.map Char.toLower)

/-- Model of String.prototype.toUpperCase (ASCII range). -/
def toUpperStr (s : String) : String :=
  String.mk (s.toList.map Char.toUpper)

/-- Does the character list contain `pat` as a contiguous sublist? -/
def listHas (pat : List Char) : List Char → Bool
  | [] => pat.isEmpty
  | c :: rest => pat.isPrefixOf (c :: rest) || listHas pat rest

/-- Model of String.prototype.includes. -/
def strIncl (s pat : String) : Bool :=
  listHas pat.toList s.toList

/-- Case-insensitive test that `s` starts with `pat` (model of an anchored
regular expression such as a caret followed by literal text, with the i flag). -/
def lowerStartsWith (s pat : String) : Bool :=
  pat.toList.isPrefixOf (toLowerStr s).toList

/-- Numeric value of a list of decimal digit characters. -/
def digitsVal (ds : List Char) : Nat :=
  ds.foldl (fun acc c => 10 * acc + (c.toNat - 48)) 0

/-- Value of a fractional digit string (the part after the decimal point). -/
def fracVal (ds : List Char) : ℚ :=
  (digitsVal ds : ℚ) / ((10 : ℚ) ^ ds.length)

/-- Model of JavaScript parseFloat on a string already sanitised to the
characters 0-9, dot, plus, minus: an optional single sign, then an integer
part and an optional fractional part, at least one digit in the mantissa;
parsing stops at the first character that does not fit.  Returns none where
parseFloat returns NaN. -/
def parseFloatSan (cs : List Char) : Option ℚ :=
  let signAndRest : Bool × List Char :=
    match cs with
    | '+' :: r => (false, r)
    | '-' :: r => (true, r)
    | r => (false, r)
  let isNeg := signAndRest.1
  let rest := signAndRest.2
  let ds := rest.takeWhile Char.isDigit
  let rest2 := rest.drop ds.length
  match rest2 with
  | '.' :: r2 =>
    let fs := r2.takeWhile Char.isDigit
    if ds.isEmpty && fs.isEmpty then none
    else
      let v := (digitsVal ds : ℚ) + fracVal fs
      some (if isNeg then -v else v)
  | _ =>
    if ds.isEmpty then none
    else some (if isNeg then (-(digitsVal ds : ℚ)) else (digitsVal ds : ℚ))

/-- The sanitisation step of toNumber: strip every character that is not a
digit, a dot, a plus or a minus. -/
def sanitizeNum (s : String) : List Char :=
  s.toList.filter (fun c => c.isDigit || c = '.' || c = '+' || c = '-')

/-- A spreadsheet cell as handed to the route by sheet_to_json: either text
or a raw number (the embedding uses integer-valued raw numbers). -/
inductive Cell where
  | str (s : String)
  | num (n : Int)
deriving Repr, DecidableEq

/-- The stringification applied to cells throughout the route:
a number cell via toString, any other cell via String(value or empty). -/
def cellStr : Cell → String
  | .str s => s
  | .num n => toString n

/-- Model of toNumber (route.ts lines 737-747) applied to a possibly missing
cell: a raw number is returned as is, an empty or missing value is absent,
and text is sanitised then parsed with parseFloat; NaN becomes absent. -/
def toNumber : Option Cell → Option ℚ
  | some (.num n) => some (n : ℚ)
  | some (.str s) => if s = "" then none else parseFloatSan (sanitizeNum s)
  | none => none

/-- Try to match, at the head of the list, one number token of the shape
digits optionally followed by a dot and more digits, returning its value and
the remaining characters. -/
def numTok (cs : List Char) : Option (ℚ × List Char) :=
  let ds := cs.takeWhile Char.isDigit
  if ds.isEmpty then none
  else
    let rest := cs.drop ds.length
    match rest with
    | '.' :: r =>
      let fs := r.takeWhile Char.isDigit
      if fs.isEmpty then some ((digitsVal ds : ℚ), rest)
      else some ((digitsVal ds : ℚ) + fracVal fs, r.drop fs.length)
    | _ => some ((digitsVal ds : ℚ), rest)

/-- Leftmost match of the width pattern: a number token, optional whitespace,
then the letter w or W (the first regular expression of extractWidth). -/
def wScan : List Char → Option ℚ
  | [] => none
  | c :: rest =>
    match numTok (c :: rest) with
    | some (q, after) =>
      let after2 := after.dropWhile isJsWs
      match after2 with
      | 'w' :: _ => some q
      | 'W' :: _ => some q
      | _ => wScan rest
    | none => wScan rest

/-- Leftmost number token anywhere in the list (the second regular
expression of extractWidth). -/
def numScan : List Char → Option ℚ
  | [] => none
  | c :: rest =>
    match numTok (c :: rest) with
    | some (q, _) => some q
    | none => numScan rest

/-- Model of extractWidth (route.ts lines 749-759). -/
def extractWidth (size : String) : ℚ :=
  match wScan size.toList with
  | some q => q
  | none =>
    match numScan size.toList with
    | some q => q
    | none => 0

/-- Model of normalizeTypeName (route.ts lines 784-829): trim, lower-case,
then the first matching substring rule wins; with no match the trimmed
original is returned. -/
def normalizeTypeName (input : String) : String :=
  let name := jsTrim input
  let lower := toLowerStr name
  if strIncl lower "base" then "Base Cabinets"
  else if strIncl lower "wall" then "Wall Cabinets"
  else if strIncl lower "tall" then "Tall Cabinets"
  else if strIncl lower "suspended" then "Suspended Cabinets"
  else if strIncl lower "mid tall" then "Tall Cabinets"
  else if strIncl lower "open shelf" || strIncl lower "panel" then "Open Shelf & Panels"
  else if strIncl lower "skirt" then "Skirting"
  else if strIncl lower "loft" then "Lofts"
  else if strIncl lower "pooja" then "Pooja Units"
  else if strIncl lower "filler" then "Fillers"
  else if strIncl lower "hinged wardrobe" then "Hinged Wardrobes"
  else if strIncl lower "sliding wardrobe" then "Sliding Wardrobes"
  else if strIncl lower "wardrobe" then "Hinged Wardrobes"
  else name

/-- Model of classifyType (route.ts lines 831-872): none models the
undefined return that makes the caller drop the row. -/
def classifyType (description : String) : Option String :=
  let normalized := normalizeTypeName description
  if normalized ≠ jsTrim description then some normalized
  else
    let lower := toLowerStr description
    if strIncl lower "base" then some "Base Cabinets"
    else if strIncl lower "wall" then some "Wall Cabinets"
    else if strIncl lower "tall" then some "Tall Cabinets"
    else if strIncl lower "suspended" then some "Suspended Cabinets"
    else if strIncl lower "pooja" then some "Pooja Units"
    else if strIncl lower "shelf" || strIncl lower "panel" then some "Open Shelf & Panels"
    else if strIncl lower "skirt" then some "Skirting"
    else if strIncl lower "loft" then some "Lofts"
    else if strIncl lower "filler" then some "Fillers"
    else if strIncl lower "wardrobe" then
      some (if strIncl lower "sliding" then "Sliding Wardrobes" else "Hinged Wardrobes")
    else none

example : normalizeTypeName "Custom Bay Unit" = "Custom Bay Unit" := by decide
example : normalizeTypeName "Base Unit " = "Base Cabinets" := by decide
example : classifyType "Sliding Wardrobe - 2 Door" = some "Sliding Wardrobes" := by decide
example : classifyType "Teak Console" = none := by decide
example : extractWidth "600Wx2100H" = 600 := by decide
example : extractWidth "100x200 W" = 200 := by decide
example : extractWidth "N/A" = 0 := by decide
example : toNumber (some (.str "0")) = some 0 := rfl
example : toNumber (some (.str "1,200.50")) = some ((1200 : ℚ) + fracVal ['5', '0']) := rfl
example : toNumber (some (.str "abc")) = none := rfl
example : (toNumber (some (.str "-3.5"))).isSome = true := rfl
example : toNumber none = none := rfl
example : toNumber (some (.num 7)) = some 7 := rfl

/-! JavaScript Map model: insertion-ordered association lists.  Map.prototype.set
replaces the value in place when the key exists (keeping its position) and
appends otherwise; iteration follows list order. -/

/-- Model of Map.prototype.get. -/
def mapGet {α : Type} : List (String × α) → String → Option α
  | [], _ => none
  | (k1, v1) :: rest, k => if k1 = k then some v1 else mapGet rest k

/-- Model of Map.prototype.set. -/
def mapSet {α : Type} : List (String × α) → String → α → List (String × α)
  | [], k, v => [(k, v)]
  | (k1, v1) :: rest, k, v =>
    if k1 = k then (k, v) :: rest else (k1, v1) :: mapSet rest k v

/-- The guarded write pattern used throughout the route: set only when the
key is not yet present (in which case JavaScript Map.set appends). -/
def insertNew {α : Type} (m : List (String × α)) (k : String) (v : α) : List (String × α) :=
  if (mapGet m k).isSome then m else m ++ [(k, v)]

/-- Model of a JavaScript array index access that may use -1 (as produced by
findIndex): negative or out-of-range indices give undefined. -/
def getOpt {α : Type} (l : List α) (i : Int) : Option α :=
  if i < 0 then none else l[i.toNat]?

/-- Model of Array.prototype.findIndex: -1 when no element matches. -/
def findIdxJs {α : Type} (p : α → Bool) (l : List α) : Int :=
  match l.findIdx? p with
  | some n => (n : Int)
  | none => -1

/-- JavaScript truthiness of a possibly-undefined string (empty and
undefined are falsy). -/
def jsTruthyS : Option String → Bool
  | some s => s ≠ ""
  | none => false

/-! Data model of the route (route.ts lines 6-63). -/

/-- MaterialsInfo: display label plus attribute-name to attribute-value
record (insertion-ordered, later assignment to the same key overwrites). -/
structure MaterialsInfo where
  label : String
  fields : List (String × String)
deriving Repr, DecidableEq

/-- CabinetStats: every field optional. -/
structure CabinetStats where
  area : Option ℚ := none
  costPerSqFt : Option ℚ := none
  total : Option ℚ := none
deriving Repr, DecidableEq

/-- DetailItem: one priced line item.  The size field is an Option because
a detail sheet with a SIZE column but a short row stores undefined. -/
structure DetailItem where
  code : String
  description : String
  size : Option String
  price : Option ℚ
deriving Repr, DecidableEq

/-- RoomAggregation (route.ts lines 24-30). -/
structure RoomAggregation where
  name : String
  materials : List (String × MaterialsInfo)
  stats : List (String × CabinetStats)
  items : List (String × List DetailItem)
  widthTotals : List (String × ℚ)
deriving Repr, DecidableEq

/-- SummaryFinancialRow (route.ts lines 48-56). -/
structure SummaryFinancialRow where
  room : String
  modules : ℚ
  accessories : ℚ
  appliances : ℚ
  services : ℚ
  furniture : ℚ
  total : Option ℚ := none
deriving Repr, DecidableEq

/-- SummaryFinancials (route.ts lines 58-63). -/
structure SummaryFinancials where
  rows : List SummaryFinancialRow
  subtotal : Option ℚ := none
  totalPayable : Option ℚ := none
  discount : Option ℚ := none
deriving Repr, DecidableEq

/-- A workbook after sheet_to_json: named sheets in order, each a list of
rows of cells.  SheetNames is the list of first components. -/
abbrev Workbook : Type := List (String × List (List Cell))

/-- Model of firstNumeric (route.ts lines 65-72): the first value in the
argument list that is an actual number. -/
def firstNumeric (l : List (Option ℚ)) : Option ℚ :=
  l.findSome? id

/-- SummaryHeaderIndices (route.ts lines 74-82); total is kept as a raw
findIndex result (-1 possible before validation). -/
structure SummaryHeaderIndices where
  room : Nat
  modules : Option Nat := none
  accessories : Option Nat := none
  appliances : Option Nat := none
  services : Option Nat := none
  furniture : Option Nat := none
  total : Int
deriving Repr, DecidableEq

/-- Model of isRoomName (route.ts lines 773-782): nonempty after trimming
and containing a space-hyphen-space separator. -/
def isRoomName (text : String) : Bool :=
  if text = "" then false
  else
    let trimmed := jsTrim text
    if trimmed = "" then false else strIncl trimmed " - "

/-- Model of detectRoomName (route.ts lines 761-771): first cell matching
the room-name pattern, scanned row-major; else the fallback sheet name. -/
def detectRoomName (rows : List (List Cell)) (fallback : String) : String :=
  match rows.findSome? (fun row => row.findSome? (fun cell =>
    let text := cellStr cell
    if isRoomName text then some (jsTrim text) else none)) with
  | some name => name
  | none => fallback

/-- Split a character list at every occurrence of the separator (model of
String.prototype.split with a literal one-character separator). -/
def splitOnChar (sep : Char) : List Char → List (List Char)
  | [] => [[]]
  | c :: rest =>
    if c = sep then [] :: splitOnChar sep rest
    else
      match splitOnChar sep rest with
      | [] => [[c]]
      | seg :: segs => (c :: seg) :: segs

/-- Helper for the blank-line separator: given the characters after an
initial newline, if the maximal whitespace run that follows contains another
newline, return the characters after the last newline of that run (the
greedy match of the separator pattern); none if the run has no newline. -/
def afterLastNl : List Char → Option (List Char)
  | [] => none
  | c :: rest =>
    if c = '\n' then
      some (match afterLastNl rest with
            | some r => r
            | none => rest)
    else if isJsWs c then afterLastNl rest
    else none

/-- Fuel-driven splitter at blank-line separators (the regular expression
newline, whitespace-star, newline); each recursive call consumes at least
one character, so fuel equal to the length is always sufficient. -/
def splitBlankGo : Nat → List Char → List Char → List (List Char)
  | 0, cs, acc => [acc.reverse ++ cs]
  | _ + 1, [], acc => [acc.reverse]
  | fuel + 1, c :: rest, acc =>
    if c = '\n' then
      match afterLastNl rest with
      | some rem => acc.reverse :: splitBlankGo fuel rem []
      | none => splitBlankGo fuel rest (c :: acc)
    else splitBlankGo fuel rest (c :: acc)

/-- Split a string at blank-line separators. -/
def splitBlankSections (cs : List Char) : List (List Char) :=
  splitBlankGo (cs.length + 1) cs []

/-- Remove a single trailing colon (the regular expression colon-at-end
replace used on materials section headings). -/
def stripTrailColon (s : String) : String :=
  match s.toList.reverse with
  | ':' :: r => String.mk r.reverse
  | _ => s

/-- Model of parseMaterialsBlock (route.ts lines 650-696): blank-line
separated sections, each holding a type heading line followed by
attribute-colon-value lines; sections are stored by canonical type name
with Map.set (a later section with the same canonical name overwrites). -/
def parseMaterialsBlock (text : String) : List (String × MaterialsInfo) :=
  let sections :=
    ((splitBlankSections text.toList).map (fun cs => jsTrim (String.mk cs))).filter
      (fun s => s ≠ "")
  sections.foldl (fun m sec =>
    let lines :=
      ((splitOnChar '\n' sec.toList).map (fun cs => jsTrim (String.mk cs))).filter
        (fun s => s ≠ "")
    match lines with
    | [] => m
    | title0 :: restLines =>
      let titleLine := jsTrim (stripTrailColon title0)
      if titleLine = "" then m
      else
        let normalized := normalizeTypeName titleLine
        let fields := restLines.foldl (fun fs line =>
          match splitOnChar ':' line.toList with
          | [] => fs
          | rawKey :: rest =>
            if rawKey.isEmpty || rest.isEmpty then fs
            else
              let key := jsTrim (String.mk rawKey)
              let value := jsTrim (String.mk (List.intercalate [':'] rest))
              if key ≠ "" && value ≠ "" then mapSet fs key value else fs) []
        mapSet m normalized ⟨titleLine, fields⟩) []

/-- Is this cell a string whose upper-cased text contains the pattern? -/
def cellUpperIncl (pat : String) (c : Cell) : Bool :=
  match c with
  | .str s => strIncl (toUpperStr s) pat
  | .num _ => false

/-- JavaScript falsiness of an optional column index: undefined and the
index 0 are both falsy (this is the check the HARDWARE fallback uses). -/
def jsFalsyIdx : Option Nat → Bool
  | none => true
  | some n => n = 0

/-- Model of the financial header row detection inside parseSummarySheet
(route.ts lines 206-254): requires a ROOM cell and a TOTAL cell, then maps
column substrings to indices with an else-if chain; HARDWARE maps to
accessories only when the accessories slot is still falsy. -/
def detectHeader (values : List Cell) : Option SummaryHeaderIndices :=
  if values.any (cellUpperIncl "ROOM") && values.any (cellUpperIncl "TOTAL") then
    let roomIndex := findIdxJs (cellUpperIncl "ROOM") values
    if roomIndex ≠ -1 then
      let init : SummaryHeaderIndices :=
        { room := roomIndex.toNat, total := findIdxJs (cellUpperIncl "TOTAL") values }
      let filled := values.enum.foldl (fun idx p =>
        match p.2 with
        | .num _ => idx
        | .str s =>
          let upper := toUpperStr s
          if strIncl upper "UNIT" then { idx with modules := some p.1 }
          else if strIncl upper "ACCESS" then { idx with accessories := some p.1 }
          else if strIncl upper "APPLIANCE" then { idx with appliances := some p.1 }
          else if strIncl upper "SERVICE" then { idx with services := some p.1 }
          else if strIncl upper "FURNITURE" || strIncl upper "DÃ‰COR" ||
              strIncl upper "DECOR" then { idx with furniture := some p.1 }
          else if strIncl upper "HARDWARE" && jsFalsyIdx idx.accessories then
            { idx with accessories := some p.1 }
          else idx) init
      if filled.total ≠ -1 then some filled else none
    else none
  else none

/-- Case-insensitive test for the anchored sub-whitespace-total label
regular expression. -/
def subTotalTest (s : String) : Bool :=
  match (toLowerStr s).toList with
  | 's' :: 'u' :: 'b' :: rest => (rest.dropWhile isJsWs) = ['t', 'o', 't', 'a', 'l']
  | _ => false

/-- Model of the per-row financial parsing after the header has been found
(route.ts lines 258-399). -/
def summaryFinRow (indices : SummaryHeaderIndices) (fin : SummaryFinancials)
    (values : List Cell) : SummaryFinancials :=
  let primaryLabel := getOpt values (Int.ofNat indices.room)
  let labelCell0 :=
    match primaryLabel with
    | some (.str s) => jsTrim s
    | _ => ""
  let labelCell :=
    if labelCell0 = "" then
      match values.enum.findSome? (fun p =>
        if (p.1 : Int) = indices.total then none
        else
          match p.2 with
          | .str s => if jsTrim s ≠ "" then some s else none
          | .num _ => none) with
      | some s => jsTrim s
      | none => ""
    else labelCell0
  let totalValue := toNumber (getOpt values indices.total)
  let modulesValue :=
    match indices.modules with
    | some i => toNumber (getOpt values (Int.ofNat i))
    | none => none
  let accessoriesValue :=
    match indices.accessories with
    | some i => toNumber (getOpt values (Int.ofNat i))
    | none => none
  let appliancesValue :=
    match indices.appliances with
    | some i => toNumber (getOpt values (Int.ofNat i))
    | none => none
  let servicesValue :=
    match indices.services with
    | some i => toNumber (getOpt values (Int.ofNat i))
    | none => none
  let furnitureValue :=
    match indices.furniture with
    | some i => toNumber (getOpt values (Int.ofNat i))
    | none => none
  let rowNumericCandidates := values.map (fun c => toNumber (some c))
  let hasNumericalData :=
    ([modulesValue, accessoriesValue, appliancesValue, servicesValue, furnitureValue,
      totalValue] ++ rowNumericCandidates).any Option.isSome
  if labelCell = "" || !hasNumericalData then fin
  else
    let lowerLabel := toLowerStr labelCell
    let normalizedLabel := toLowerStr (jsTrim labelCell)
    if normalizedLabel = "total" then
      match firstNumeric ([totalValue, modulesValue, accessoriesValue, appliancesValue,
          servicesValue, furnitureValue] ++ rowNumericCandidates) with
      | some q => if fin.subtotal = none then { fin with subtotal := some q } else fin
      | none => fin
    else if subTotalTest labelCell then
      match firstNumeric [totalValue, modulesValue, accessoriesValue, appliancesValue,
          servicesValue, furnitureValue] with
      | some q => { fin with subtotal := some q }
      | none => fin
    else if strIncl lowerLabel "discount" then
      match firstNumeric ([totalValue, modulesValue, accessoriesValue, appliancesValue,
          servicesValue, furnitureValue] ++ rowNumericCandidates) with
      | some q => { fin with discount := some q }
      | none => fin
    else if strIncl lowerLabel "total" &&
        (strIncl lowerLabel "payable" || strIncl lowerLabel "after") then
      match firstNumeric [totalValue, modulesValue, accessoriesValue, appliancesValue,
          servicesValue, furnitureValue] with
      | some q => { fin with totalPayable := some q }
      | none => fin
    else
      let row : SummaryFinancialRow :=
        { room := labelCell, modules := modulesValue.getD 0,
          accessories := accessoriesValue.getD 0, appliances := appliancesValue.getD 0,
          services := servicesValue.getD 0, furniture := furnitureValue.getD 0 }
      let row2 :=
        match totalValue with
        | some t => { row with total := some t }
        | none =>
          let derived := row.modules + row.accessories + row.appliances +
            row.services + row.furniture
          if 0 < derived then { row with total := some derived } else row
      { fin with rows := fin.rows ++ [row2] }

/-- The mutable scan state of parseSummarySheet: the per-room materials
mapping, the current-room context, the located header indices and the raw
financials accumulator. -/
structure SummaryState where
  mbr : List (String × List (String × MaterialsInfo))
  currentRoom : Option String
  hdr : Option SummaryHeaderIndices
  fin : SummaryFinancials

/-- The room-candidate search of a Summary row (route.ts lines 177-179):
the first string cell matching the room-name pattern. -/
def roomCandOf (values : List Cell) : Option String :=
  values.findSome? (fun c =>
    match c with
    | .str s => if isRoomName s then some s else none
    | .num _ => none)

/-- The materials-cell search of a Summary row (route.ts lines 188-192):
the first string cell containing Carcass or Handles text. -/
def matCellOf (values : List Cell) : Option String :=
  values.findSome? (fun (c : Cell) =>
    match c with
    | .str s => if strIncl s "Carcass:" || strIncl s "Handles:" then some s else none
    | .num _ => none)

/-- Registration of a newly seen room (route.ts lines 180-185): the trimmed
candidate becomes current and gets an empty materials map unless present. -/
def summaryMbr1 (mbr : List (String × List (String × MaterialsInfo)))
    (roomCand : Option String) : List (String × List (String × MaterialsInfo)) :=
  match roomCand with
  | some s => insertNew mbr (jsTrim s) []
  | none => mbr

/-- Folding one materials cell into the current room's map (route.ts lines
187-204): every parsed section is stored only if its type key is absent. -/
def summaryMbr2 (mbr1 : List (String × List (String × MaterialsInfo)))
    (currentRoom : Option String) (matCell : Option String) :
    List (String × List (String × MaterialsInfo)) :=
  match currentRoom with
  | some r =>
    (match matCell with
     | some s =>
       let parsed := parseMaterialsBlock s
       let roomMaterials := (mapGet mbr1 r).getD []
       let updated := parsed.foldl
         (fun acc (p : String × MaterialsInfo) => insertNew acc p.1 p.2) roomMaterials
       mapSet mbr1 r updated
     | none => mbr1)
  | none => mbr1

/-- One row of the parseSummarySheet scan (route.ts lines 174-400): update
the current room, fold any materials cell into the room's first-write-wins
materials map, then either look for the financial header (and skip the rest
of the row) or parse the row as a financial row. -/
def summaryRowStep (st : SummaryState) (row : List Cell) : SummaryState :=
  let values := row
  let roomCand := roomCandOf values
  let newRoom :=
    match roomCand with
    | some s => some (jsTrim s)
    | none => st.currentRoom
  let mbr2 := summaryMbr2 (summaryMbr1 st.mbr roomCand) newRoom (matCellOf values)
  match st.hdr with
  | none => ⟨mbr2, newRoom, detectHeader values, st.fin⟩
  | some idx => ⟨mbr2, newRoom, some idx, summaryFinRow idx st.fin values⟩

/-- The result shape of parseSummarySheet. -/
structure SummaryParse where
  materialsByRoom : List (String × List (String × MaterialsInfo))
  financials : Option SummaryFinancials

/-- Model of parseSummarySheet (route.ts lines 155-412): absent Summary
sheet gives empty materials and null financials; otherwise the row scan,
with the financials replaced by a fresh empty object when nothing at all
was found. -/
def parseSummarySheet (w : Workbook) : SummaryParse :=
  match mapGet w "Summary" with
  | none => ⟨[], none⟩
  | some rows =>
    let st := rows.foldl summaryRowStep ⟨[], none, none, ⟨[], none, none, none⟩⟩
    let keep := !st.fin.rows.isEmpty || st.fin.discount.isSome || st.fin.subtotal.isSome ||
      st.fin.totalPayable.isSome
    ⟨st.mbr, some (if keep then st.fin else ⟨[], none, none, none⟩)⟩

example :
    parseMaterialsBlock "Base Cabinets:\nCarcass: 18mm BWP\nHandles: SS" =
      [("Base Cabinets",
        ⟨"Base Cabinets", [("Carcass", "18mm BWP"), ("Handles", "SS")]⟩)] := by
  decide

example :
    detectHeader [.str "ACCESS", .str "ROOM", .str "TOTAL", .str "HARDWARE"] =
      some { room := 1, total := 2, accessories := some 3 } := by
  decide

/-- Does a row contain a cell whose upper-cased text includes CABINET TYPE? -/
def hasCabinetTypeCell (row : List Cell) : Bool :=
  row.any (fun c => strIncl (toUpperStr (cellStr c)) "CABINET TYPE")

/-- The row loop of parseCabinetStats (route.ts lines 537-575): skip rows
with an empty type cell, stop at a wood-work or total row, otherwise merge
the row's stats (a column present in the header overwrites even with an
unparsable value, mirroring the object spread) and ensure a placeholder
materials entry. -/
def statsRows (ti ai ci toti : Int) (room : RoomAggregation) :
    List (List Cell) → RoomAggregation
  | [] => room
  | row :: rest =>
    let rowS := row.map cellStr
    let typeName := (getOpt rowS ti).map jsTrim
    if !jsTruthyS typeName then statsRows ti ai ci toti room rest
    else
      let t := typeName.getD ""
      if lowerStartsWith t "wood work" || lowerStartsWith t "total" then room
      else
        let normalized := normalizeTypeName t
        let old := (mapGet room.stats normalized).getD {}
        let merged : CabinetStats :=
          { area := if ai ≠ -1 then toNumber ((getOpt rowS ai).map Cell.str) else old.area,
            costPerSqFt :=
              if ci ≠ -1 then toNumber ((getOpt rowS ci).map Cell.str) else old.costPerSqFt,
            total :=
              if toti ≠ -1 then toNumber ((getOpt rowS toti).map Cell.str) else old.total }
        let room1 := { room with stats := mapSet room.stats normalized merged }
        let room2 :=
          { room1 with materials := insertNew room1.materials normalized ⟨t, []⟩ }
        statsRows ti ai ci toti room2 rest

/-- Model of parseCabinetStats (route.ts lines 517-576). -/
def parseCabinetStats (rows : List (List Cell)) (room : RoomAggregation) :
    RoomAggregation :=
  match rows.findIdx? hasCabinetTypeCell with
  | none => room
  | some h =>
    let headerRow := (rows[h]?.getD []).map cellStr
    let ti := findIdxJs (fun v => strIncl (toUpperStr v) "CABINET TYPE") headerRow
    let ai := findIdxJs (fun v => strIncl (toUpperStr v) "AREA") headerRow
    let ci := findIdxJs (fun v => strIncl (toUpperStr v) "COST") headerRow
    let toti := findIdxJs (fun v => strIncl (toUpperStr v) "TOTAL") headerRow
    statsRows ti ai ci toti room (rows.drop (h + 1))

/-- Does a row contain a cell whose upper-cased text includes DESCRIPTION? -/
def hasDescriptionCell (row : List Cell) : Bool :=
  row.any (fun c => strIncl (toUpperStr (cellStr c)) "DESCRIPTION")

/-- The column indices of a detail sheet, as raw findIndex results. -/
structure DetailIdx where
  sl : Int
  code : Int
  descr : Int
  size : Int
  price : Int
deriving Repr, DecidableEq

/-- One data row of parseDetailItems (route.ts lines 599-647): skip when the
serial or description is missing, when the description is exactly Total, or
when classification fails; otherwise append the item, accumulate the width
when a size string is present, and ensure a placeholder materials entry. -/
def detailRowStep (idx : DetailIdx) (room : RoomAggregation) (row : List Cell) :
    RoomAggregation :=
  let rowS := row.map cellStr
  let slValue := (getOpt rowS idx.sl).map jsTrim
  let code := (getOpt rowS idx.code).map jsTrim
  let descrCell := (getOpt rowS idx.descr).map jsTrim
  if !jsTruthyS slValue || !jsTruthyS descrCell then room
  else
    let d := descrCell.getD ""
    if toLowerStr d = "total" then room
    else
      match classifyType d with
      | none => room
      | some ty =>
        let size : Option String :=
          if idx.size ≠ -1 then (getOpt rowS idx.size).map jsTrim else some ""
        let price : Option ℚ :=
          if idx.price ≠ -1 then toNumber ((getOpt rowS idx.price).map Cell.str) else none
        let items0 := (mapGet room.items ty).getD []
        let items1 := mapSet room.items ty (items0 ++ [⟨code.getD "", d, size, price⟩])
        let widthTotals1 :=
          if jsTruthyS size then
            let current := (mapGet room.widthTotals ty).getD 0
            mapSet room.widthTotals ty (current + extractWidth (size.getD ""))
          else room.widthTotals
        let materials1 := insertNew room.materials ty ⟨ty, []⟩
        { room with items := items1, widthTotals := widthTotals1, materials := materials1 }

/-- Model of parseDetailItems (route.ts lines 578-648). -/
def parseDetailItems (rows : List (List Cell)) (room : RoomAggregation) :
    RoomAggregation :=
  match rows.findIdx? hasDescriptionCell with
  | none => room
  | some h =>
    let headerRow := (rows[h]?.getD []).map cellStr
    let idx : DetailIdx :=
      { sl := findIdxJs (fun v => strIncl (toUpperStr v) "SL") headerRow,
        code := findIdxJs (fun v => strIncl (toUpperStr v) "CODE") headerRow,
        descr := findIdxJs (fun v => strIncl (toUpperStr v) "DESCRIPTION") headerRow,
        size := findIdxJs (fun v => strIncl (toUpperStr v) "SIZE") headerRow,
        price := findIdxJs (fun v => strIncl (toUpperStr v) "PRICE") headerRow }
    (rows.drop (h + 1)).foldl (detailRowStep idx) room

/-- The inline materials fallback of aggregateRooms (route.ts lines 496-511):
scan every cell for Carcass text and fold the parsed blocks in,
first write wins. -/
def inlineMaterials (rows : List (List Cell)) (room : RoomAggregation) :
    RoomAggregation :=
  rows.foldl (fun r row => row.foldl (fun r c =>
    let text := cellStr c
    if strIncl text "Carcass:" then
      let mats := (parseMaterialsBlock text).foldl
        (fun acc (p : String × MaterialsInfo) => insertNew acc p.1 p.2) r.materials
      { r with materials := mats }
    else r) r) room

/-- Does `s` end with the given suffix? -/
def strEndsWith (s sfx : String) : Bool :=
  sfx.toList.reverse.isPrefixOf s.toList.reverse

/-- Model of the sheet-name test for a stats sheet: the regular expression
sq, optional dot, ft, optional dot, anchored at the end, case-insensitive. -/
def isSqFtSheetName (name : String) : Bool :=
  let l := toLowerStr name
  strEndsWith l "sqft" || strEndsWith l "sq.ft" || strEndsWith l "sqft." ||
    strEndsWith l "sq.ft."

/-- Model of the sheet-name test for a detail sheet: details anchored at the
end, case-insensitive. -/
def isDetailsSheetName (name : String) : Bool :=
  strEndsWith (toLowerStr name) "details"

/-- Creation of a fresh room aggregate seeded from the Summary materials of
that room (route.ts lines 477-489). -/
def mkSeededRoom (mbr : List (String × List (String × MaterialsInfo)))
    (roomName : String) : RoomAggregation :=
  let seeded :=
    match mapGet mbr roomName with
    | some m => m.foldl (fun acc (p : String × MaterialsInfo) => mapSet acc p.1 p.2) []
    | none => []
  ⟨roomName, seeded, [], [], []⟩

/-- The sheet-kind dispatch of aggregateRooms (route.ts lines 492-511). -/
def sheetDispatch (sheetName : String) (rows : List (List Cell))
    (room : RoomAggregation) : RoomAggregation :=
  if isSqFtSheetName sheetName then parseCabinetStats rows room
  else if isDetailsSheetName sheetName then parseDetailItems rows room
  else if room.materials.isEmpty then inlineMaterials rows room
  else room

/-- Processing of one named sheet by aggregateRooms (route.ts lines 453-512):
skip the Summary and Terms sheets and empty sheets, detect the room, create
and seed the aggregate on first sight, then dispatch on the sheet-name
suffix. -/
def processSheet (mbr : List (String × List (String × MaterialsInfo)))
    (rm : List (String × RoomAggregation)) (sheetName : String)
    (rows : List (List Cell)) : List (String × RoomAggregation) :=
  if sheetName = "Summary" || sheetName = "Terms & Conditions" then rm
  else if rows.isEmpty then rm
  else
    let roomName := detectRoomName rows sheetName
    let room :=
      match mapGet rm roomName with
      | some r => r
      | none => mkSeededRoom mbr roomName
    mapSet rm roomName (sheetDispatch sheetName rows room)

/-- Model of aggregateRooms (route.ts lines 447-515): fold over the sheet
names in workbook order, then return the room aggregates in insertion
order. -/
def aggregateRooms (w : Workbook)
    (mbr : List (String × List (String × MaterialsInfo))) : List RoomAggregation :=
  ((w.map Prod.fst).foldl (fun rm name =>
    match mapGet w name with
    | none => rm
    | some rows => processSheet mbr rm name rows) []).map Prod.snd

/-- Model of finalizeFinancials on a non-null summary (route.ts lines
419-444): synthesize a single Total row when a subtotal exists without any
rows, then derive the discount from subtotal minus totalPayable when the
discount is unknown and the difference exceeds the noise threshold. -/
def finalizeFin (f : SummaryFinancials) : SummaryFinancials :=
  let f1 :=
    match f.subtotal with
    | some st =>
      if f.rows.isEmpty then { f with rows := [⟨"Total", st, 0, 0, 0, 0, some st⟩] } else f
    | none => f
  if f1.discount = none then
    match f1.subtotal, f1.totalPayable with
    | some st, some tp =>
      let derived := st - tp
      if (0.001 : ℚ) < |derived| then { f1 with discount := some derived } else f1
    | _, _ => f1
  else f1

/-- Model of finalizeFinancials (route.ts lines 414-445) including the null
passthrough. -/
def finalizeFinancials : Option SummaryFinancials → Option SummaryFinancials
  | none => none
  | some f => some (finalizeFin f)

/-- The per-type block of the response (route.ts lines 34-45). -/
structure StatsOut where
  areaSqFt : Option ℚ
  costPerSqFt : Option ℚ
  total : Option ℚ
deriving Repr, DecidableEq

/-- One type entry of a RoomResponse. -/
structure TypeEntry where
  type : String
  label : String
  materials : List (String × String)
  stats : StatsOut
  dimensionAggregate : Option ℚ
  items : List DetailItem
deriving Repr, DecidableEq

/-- RoomResponse (route.ts lines 32-46). -/
structure RoomResponse where
  name : String
  types : List TypeEntry
deriving Repr, DecidableEq

/-- Model of Set.prototype.add: append the key when it is not yet present. -/
def addKey (l : List String) (k : String) : List String :=
  if k ∈ l then l else l ++ [k]

/-- The type-key set of a room (route.ts lines 700-703): materials keys,
then stats keys, then item keys, deduplicated in insertion order. -/
def typeKeySet (room : RoomAggregation) : List String :=
  (room.materials.map Prod.fst ++ room.stats.map Prod.fst ++
    room.items.map Prod.fst).foldl addKey []

/-- The primary collation weight of one character: characters are ordered
by class (others, then digits, then letters), and letters are folded to
lower case so that the primary comparison is case-insensitive. -/
def primPair (c : Char) : Nat ×ₗ Nat :=
  toLex (if c.isDigit then (1, c.toNat)
    else if c.isAlpha then (2, c.toLower.toNat)
    else (0, c.toNat))

/-- The case weight of one character: lower case sorts before upper case
when the primary weights tie. -/
def caseWeight (c : Char) : Nat := if c.isUpper then 1 else 0

/-- The collation key of a string: the whole primary weight sequence first,
the case weights only as a tie-break after it.  String.prototype.localeCompare
with no arguments (route.ts line 706) delegates to the runtime's
default-locale ICU collation, which is library behavior outside this
repository's sources.  This key reproduces that collation's observable
ordering where it matters for these keys: letters compare alphabetically
ignoring case, case breaks ties only after the whole primary comparison
with lower case first, and digits and all other characters sort below
letters.  Within the non-letter class the key falls back to code-point
order, an approximation of the ICU weights that agrees on the space and
ampersand appearing in the canonical type names. -/
def collKey (s : String) : (List (Nat ×ₗ Nat)) ×ₗ (List Nat) :=
  toLex (s.toList.map primPair, s.toList.map caseWeight)

/-- The comparator of the type-key sort, as a relation on strings. -/
def collLe (a b : String) : Prop := collKey a ≤ collKey b

instance : DecidableRel collLe :=
  fun a b => inferInstanceAs (Decidable (collKey a ≤ collKey b))

instance : IsTotal String collLe := ⟨fun a b => le_total (collKey a) (collKey b)⟩

instance : IsTrans String collLe := ⟨fun _ _ _ h1 h2 => le_trans h1 h2⟩

/-- The sorted type keys (route.ts lines 705-706): the key set sorted by
the localeCompare collation. -/
def sortedTypeKeys (room : RoomAggregation) : List String :=
  (typeKeySet room).insertionSort collLe

/-- The per-type entry builder of formatRooms (route.ts lines 707-728).
The items mapping of the source re-creates each item with a price that is
kept only when it is a number, which is the identity here because price is
already an Option. -/
def mkTypeEntry (room : RoomAggregation) (t : String) : TypeEntry :=
  let materialInfo := mapGet room.materials t
  let stats := (mapGet room.stats t).getD {}
  let items := (mapGet room.items t).getD []
  let dimensionAggregate :=
    match mapGet room.widthTotals t with
    | some q => if q = 0 then none else some q
    | none => none
  { type := t,
    label := (materialInfo.map MaterialsInfo.label).getD t,
    materials := (materialInfo.map MaterialsInfo.fields).getD [],
    stats := ⟨stats.area, stats.costPerSqFt, stats.total⟩,
    dimensionAggregate := dimensionAggregate,
    items := items }

/-- Model of formatRooms for one room (route.ts lines 699-733). -/
def formatRoom (room : RoomAggregation) : RoomResponse :=
  ⟨room.name, (sortedTypeKeys room).map (mkTypeEntry room)⟩

/-- Model of formatRooms (route.ts lines 698-735). -/
def formatRooms (rooms : List RoomAggregation) : List RoomResponse :=
  rooms.map formatRoom

/-- The JSON tree produced by JSON.stringify: null is a present value while
an undefined object member is an omitted key. -/
inductive Json where
  | jnull
  | jnum (q : ℚ)
  | jstr (s : String)
  | jarr (elems : List Json)
  | jobj (fields : List (String × Json))

/-- Serialization of an optional number held in a null-defaulted field:
the key is always present, absent values as null. -/
def serializeOptNum : Option ℚ → Json
  | some q => .jnum q
  | none => .jnull

/-- Serialization of one item: size and price are undefined-able fields, so
JSON.stringify omits their keys when absent. -/
def serializeItem (it : DetailItem) : Json :=
  .jobj ([("code", .jstr it.code), ("description", .jstr it.description)] ++
    (match it.size with
     | some s => [("size", Json.jstr s)]
     | none => []) ++
    (match it.price with
     | some q => [("price", Json.jnum q)]
     | none => []))

/-- Serialization of the stats block: all three keys are always present
because the assembler writes explicit nulls. -/
def serializeStats (st : StatsOut) : Json :=
  .jobj [("areaSqFt", serializeOptNum st.areaSqFt),
    ("costPerSqFt", serializeOptNum st.costPerSqFt),
    ("total", serializeOptNum st.total)]

/-- Serialization of one type entry. -/
def serializeTypeEntry (e : TypeEntry) : Json :=
  .jobj [("type", .jstr e.type), ("label", .jstr e.label),
    ("materials", .jobj (e.materials.map (fun p => (p.1, Json.jstr p.2)))),
    ("stats", serializeStats e.stats),
    ("dimensionAggregate", serializeOptNum e.dimensionAggregate),
    ("items", .jarr (e.items.map serializeItem))]

/-- Serialization of one room. -/
def serializeRoom (r : RoomResponse) : Json :=
  .jobj [("name", .jstr r.name), ("types", .jarr (r.types.map serializeTypeEntry))]

/-- Serialization of one summary financial row; the optional total key is
omitted when undefined. -/
def serializeFinRow (r : SummaryFinancialRow) : Json :=
  .jobj ([("room", .jstr r.room), ("modules", .jnum r.modules),
    ("accessories", .jnum r.accessories), ("appliances", .jnum r.appliances),
    ("services", .jnum r.services), ("furniture", .jnum r.furniture)] ++
    (match r.total with
     | some q => [("total", Json.jnum q)]
     | none => []))

/-- Serialization of the finalized summary; optional keys are omitted when
undefined.  Member order follows the type declaration (the runtime insertion
order can differ, which no verified property depends on). -/
def serializeSummaryFin (f : SummaryFinancials) : Json :=
  .jobj ([("rows", .jarr (f.rows.map serializeFinRow))] ++
    (match f.subtotal with
     | some q => [("subtotal", Json.jnum q)]
     | none => []) ++
    (match f.totalPayable with
     | some q => [("totalPayable", Json.jnum q)]
     | none => []) ++
    (match f.discount with
     | some q => [("discount", Json.jnum q)]
     | none => []))

/-- The successful response body of the conversion endpoint.  The metadata
record produced by extractMetadata is outside the verified properties and is
not modelled. -/
structure ConvertPayload where
  rooms : List RoomResponse
  summary : Option SummaryFinancials

/-- Model of the POST handler's conversion logic (route.ts lines 102-153)
for an already-loaded workbook: fatal errors are exactly the empty workbook
and the empty aggregation; everything else succeeds. -/
def POSTmodel (w : Workbook) : Except String ConvertPayload :=
  if w.isEmpty then .error "No sheets found in uploaded workbook"
  else
    let sp := parseSummarySheet w
    let finalizedSummary := finalizeFinancials sp.financials
    let rooms := aggregateRooms w sp.materialsByRoom
    if rooms.isEmpty then .error "No recognizable cabinet data found in workbook"
    else .ok ⟨formatRooms rooms, finalizedSummary⟩

/-- Serialization of the response body (rooms and summary members). -/
def serializeResponse (p : ConvertPayload) : Json :=
  .jobj [("rooms", .jarr (p.rooms.map serializeRoom)),
    ("summary",
      match p.summary with
      | some f => serializeSummaryFin f
      | none => .jnull)]

/-- Member lookup in a JSON object. -/
def jField : Json → String → Option Json
  | .jobj l, k => mapGet l k
  | _, _ => none

/-- Element lookup in a JSON array. -/
def jAt : Json → Nat → Option Json
  | .jarr l, i => l[i]?
  | _, _ => none


/-! Lemmas about the map model. -/

theorem mapGet_append_some {α : Type} {m l2 : List (String × α)} {t : String} {b : α}
    (h : mapGet m t = some b) : mapGet (m ++ l2) t = some b := by
  induction m with
  | nil => simp [mapGet] at h
  | cons p rest ih =>
    obtain ⟨k1, v1⟩ := p
    by_cases hk : k1 = t
    · simpa [mapGet, hk] using h
    · rw [List.cons_append]
      simp only [mapGet, hk, if_false] at h ⊢
      exact ih h

theorem mapGet_insertNew_some {α : Type} {m : List (String × α)} {t : String} {b : α}
    (k : String) (v : α) (h : mapGet m t = some b) :
    mapGet (insertNew m k v) t = some b := by
  unfold insertNew
  split
  · exact h
  · exact mapGet_append_some h

theorem mapGet_mapSet_self {α : Type} (m : List (String × α)) (k : String) (v : α) :
    mapGet (mapSet m k v) k = some v := by
  induction m with
  | nil => simp [mapSet, mapGet]
  | cons p rest ih =>
    obtain ⟨k1, v1⟩ := p
    by_cases hk : k1 = k
    · simp [mapSet, hk, mapGet]
    · simp [mapSet, hk, mapGet, ih]

theorem mapGet_mapSet_ne {α : Type} (m : List (String × α)) {k t : String} (v : α)
    (h : k ≠ t) : mapGet (mapSet m k v) t = mapGet m t := by
  induction m with
  | nil => simp [mapSet, mapGet, h]
  | cons p rest ih =>
    obtain ⟨k1, v1⟩ := p
    by_cases hk : k1 = k
    · subst hk
      simp [mapSet, mapGet, h]
    · simp [mapSet, hk, mapGet, ih]

theorem mapGet_mapSet_cases {α : Type} {m : List (String × α)} {k t : String} {v x : α}
    (h : mapGet (mapSet m k v) t = some x) : mapGet m t = some x ∨ x = v := by
  by_cases hk : k = t
  · subst hk
    rw [mapGet_mapSet_self] at h
    exact Or.inr (Option.some_injective _ h).symm
  · rw [mapGet_mapSet_ne m v hk] at h
    exact Or.inl h

theorem mapGet_append_single_cases {α : Type} {m : List (String × α)} {k t : String}
    {v x : α} (h : mapGet (m ++ [(k, v)]) t = some x) :
    mapGet m t = some x ∨ x = v := by
  induction m with
  | nil =>
    simp only [List.nil_append, mapGet] at h
    split at h
    · exact Or.inr (Option.some_injective _ h).symm
    · exact absurd h (by simp [mapGet])
  | cons p rest ih =>
    obtain ⟨k1, v1⟩ := p
    by_cases hk : k1 = t
    · rw [List.cons_append] at h
      simp only [mapGet, hk, if_true] at h
      exact Or.inl (by simp [mapGet, hk, h])
    · rw [List.cons_append] at h
      simp only [mapGet, hk, if_false] at h ⊢
      exact ih h

theorem mapGet_insertNew_cases {α : Type} {m : List (String × α)} {k t : String}
    {v x : α} (h : mapGet (insertNew m k v) t = some x) :
    mapGet m t = some x ∨ x = v := by
  unfold insertNew at h
  split at h
  · exact Or.inl h
  · exact mapGet_append_single_cases h

/-- The keys of a map. -/
def keysOf {α : Type} (m : List (String × α)) : List String :=
  m.map Prod.fst

/-- A map has no duplicate keys. -/
def nodupKeys {α : Type} (m : List (String × α)) : Prop :=
  (keysOf m).Nodup

theorem mapGet_eq_none_iff {α : Type} {m : List (String × α)} {k : String} :
    mapGet m k = none ↔ k ∉ keysOf m := by
  induction m with
  | nil => simp [mapGet, keysOf]
  | cons p rest ih =>
    obtain ⟨k1, v1⟩ := p
    unfold keysOf at ih ⊢
    by_cases hk : k1 = k
    · simp [mapGet, hk]
    · simp only [mapGet, hk, if_false, List.map_cons, List.mem_cons]
      rw [ih]
      constructor
      · intro hnot hor
        rcases hor with he | hm
        · exact hk he.symm
        · exact hnot hm
      · intro hnot hm
        exact hnot (Or.inr hm)

theorem mapGet_isSome_iff_mem {α : Type} {m : List (String × α)} {k : String} :
    (mapGet m k).isSome = true ↔ k ∈ keysOf m := by
  rcases h : mapGet m k with _ | v
  · simp only [Option.isSome_none, Bool.false_eq_true, false_iff]
    exact mapGet_eq_none_iff.mp h
  · simp only [Option.isSome_some, true_iff]
    by_contra hmem
    rw [mapGet_eq_none_iff.mpr hmem] at h
    exact Option.noConfusion h

theorem nodupKeys_insertNew {α : Type} {m : List (String × α)} (k : String) (v : α)
    (h : nodupKeys m) : nodupKeys (insertNew m k v) := by
  unfold insertNew
  split
  · exact h
  · rename_i hnone
    have hk : k ∉ keysOf m := by
      intro hmem
      rw [← mapGet_isSome_iff_mem] at hmem
      exact hnone hmem
    unfold nodupKeys at h ⊢
    have hkeys : keysOf (m ++ [(k, v)]) = keysOf m ++ [k] := by simp [keysOf]
    rw [hkeys]
    exact h.append (List.nodup_singleton k) (by simpa [List.disjoint_singleton] using hk)

theorem foldlPreserve {α β : Type} (P : α → Prop) (f : α → β → α) (l : List β)
    (init : α) (step : ∀ a b, P a → P (f a b)) (h : P init) : P (l.foldl f init) := by
  induction l generalizing init with
  | nil => exact h
  | cons x rest ih => exact ih (f init x) (step init x h)

theorem mapGet_foldl_mapSet_not_mem {α : Type} {l : List (String × α)} {t : String}
    (h : t ∉ keysOf l) (init : List (String × α)) :
    mapGet (l.foldl (fun acc p => mapSet acc p.1 p.2) init) t = mapGet init t := by
  induction l generalizing init with
  | nil => rfl
  | cons p rest ih =>
    obtain ⟨k, v⟩ := p
    simp only [keysOf, List.map_cons, List.mem_cons] at h
    push_neg at h
    obtain ⟨hk, hrest⟩ := h
    rw [List.foldl_cons]
    rw [ih (by simpa [keysOf] using hrest) (mapSet init k v)]
    exact mapGet_mapSet_ne init v (Ne.symm hk)

theorem mapGet_foldl_mapSet_of_nodup {α : Type} {m : List (String × α)} {t : String}
    {b : α} (hnd : nodupKeys m) (h : mapGet m t = some b) (init : List (String × α)) :
    mapGet (m.foldl (fun acc p => mapSet acc p.1 p.2) init) t = some b := by
  induction m generalizing init with
  | nil => simp [mapGet] at h
  | cons p rest ih =>
    obtain ⟨k, v⟩ := p
    unfold nodupKeys keysOf at hnd
    rw [List.map_cons, List.nodup_cons] at hnd
    obtain ⟨hk, hrest⟩ := hnd
    by_cases hkt : k = t
    · subst hkt
      simp only [mapGet, if_true] at h
      rw [List.foldl_cons]
      rw [mapGet_foldl_mapSet_not_mem (by simpa [keysOf] using hk) (mapSet init k v)]
      rw [mapGet_mapSet_self init k v]
      exact congrArg some (by injection h)
    · simp only [mapGet, hkt, if_false] at h
      rw [List.foldl_cons]
      exact ih hrest h (mapSet init k v)

theorem mapGet_mem {α : Type} {m : List (String × α)} {k : String} {v : α}
    (h : mapGet m k = some v) : (k, v) ∈ m := by
  induction m with
  | nil => simp [mapGet] at h
  | cons p rest ih =>
    obtain ⟨k1, v1⟩ := p
    by_cases hk : k1 = k
    · subst hk
      simp only [mapGet, if_true] at h
      simp [← Option.some_injective _ h]
    · simp only [mapGet, hk, if_false] at h
      exact List.mem_cons_of_mem _ (ih h)

theorem mem_mapSet_cases {α : Type} {m : List (String × α)} {k : String} {v : α}
    {p : String × α} (h : p ∈ mapSet m k v) : p ∈ m ∨ p = (k, v) := by
  induction m with
  | nil => simpa [mapSet] using h
  | cons q rest ih =>
    obtain ⟨k1, v1⟩ := q
    by_cases hk : k1 = k
    · simp only [mapSet, hk, if_true, List.mem_cons] at h
      rcases h with he | hm
      · exact Or.inr he
      · exact Or.inl (List.mem_cons_of_mem _ hm)
    · simp only [mapSet, hk, if_false, List.mem_cons] at h
      rcases h with he | hm
      · exact Or.inl (by simp [he])
      · rcases ih hm with hl | hr
        · exact Or.inl (List.mem_cons_of_mem _ hl)
        · exact Or.inr hr

/-! Preservation lemmas: no step of the per-sheet aggregation ever replaces
an existing materials entry, and no step renames a room. -/

theorem detailRowStep_materials_some {idx : DetailIdx} {room : RoomAggregation}
    {row : List Cell} {t : String} {b : MaterialsInfo}
    (h : mapGet room.materials t = some b) :
    mapGet (detailRowStep idx room row).materials t = some b := by
  unfold detailRowStep
  dsimp only
  split
  · exact h
  · split
    · exact h
    · split
      · exact h
      · split
        · exact mapGet_insertNew_some _ _ h
        · exact mapGet_insertNew_some _ _ h

theorem detailRowStep_name {idx : DetailIdx} {room : RoomAggregation}
    {row : List Cell} : (detailRowStep idx room row).name = room.name := by
  unfold detailRowStep
  dsimp only
  split
  · rfl
  · split
    · rfl
    · split
      · rfl
      · split <;> rfl

theorem statsRows_materials_some {ti ai ci toti : Int} {t : String} {b : MaterialsInfo} :
    ∀ (rows : List (List Cell)) (room : RoomAggregation),
    mapGet room.materials t = some b →
    mapGet (statsRows ti ai ci toti room rows).materials t = some b := by
  intro rows
  induction rows with
  | nil => intro room h; exact h
  | cons row rest ih =>
    intro room h
    unfold statsRows
    dsimp only
    split
    · exact ih room h
    · split
      · exact h
      · exact ih _ (mapGet_insertNew_some _ _ h)

theorem statsRows_name {ti ai ci toti : Int} :
    ∀ (rows : List (List Cell)) (room : RoomAggregation),
    (statsRows ti ai ci toti room rows).name = room.name := by
  intro rows
  induction rows with
  | nil => intro room; rfl
  | cons row rest ih =>
    intro room
    unfold statsRows
    dsimp only
    split
    · exact ih room
    · split
      · rfl
      · exact ih _

theorem parseCabinetStats_materials_some {rows : List (List Cell)}
    {room : RoomAggregation} {t : String} {b : MaterialsInfo}
    (h : mapGet room.materials t = some b) :
    mapGet (parseCabinetStats rows room).materials t = some b := by
  unfold parseCabinetStats
  split
  · exact h
  · exact statsRows_materials_some _ _ h

theorem parseCabinetStats_name {rows : List (List Cell)} {room : RoomAggregation} :
    (parseCabinetStats rows room).name = room.name := by
  unfold parseCabinetStats
  split
  · rfl
  · exact statsRows_name _ _

theorem parseDetailItems_materials_some {rows : List (List Cell)}
    {room : RoomAggregation} {t : String} {b : MaterialsInfo}
    (h : mapGet room.materials t = some b) :
    mapGet (parseDetailItems rows room).materials t = some b := by
  unfold parseDetailItems
  split
  · exact h
  · exact foldlPreserve (fun r => mapGet r.materials t = some b) _ _ room
      (fun a c ha => detailRowStep_materials_some ha) h

theorem parseDetailItems_name {rows : List (List Cell)} {room : RoomAggregation} :
    (parseDetailItems rows room).name = room.name := by
  unfold parseDetailItems
  split
  · rfl
  · exact foldlPreserve (fun r => r.name = room.name) _ _ room
      (fun a c ha => detailRowStep_name.trans ha) rfl

theorem inlineMaterials_materials_some {rows : List (List Cell)}
    {room : RoomAggregation} {t : String} {b : MaterialsInfo}
    (h : mapGet room.materials t = some b) :
    mapGet (inlineMaterials rows room).materials t = some b := by
  unfold inlineMaterials
  refine foldlPreserve (fun r => mapGet r.materials t = some b) _ _ room ?_ h
  intro a row ha
  refine foldlPreserve (fun r => mapGet r.materials t = some b) _ _ a ?_ ha
  intro a2 c ha2
  dsimp only
  split
  · exact foldlPreserve (fun mm => mapGet mm t = some b) _ _ a2.materials
      (fun mm p hmm => mapGet_insertNew_some _ _ hmm) ha2
  · exact ha2

theorem inlineMaterials_name {rows : List (List Cell)} {room : RoomAggregation} :
    (inlineMaterials rows room).name = room.name := by
  unfold inlineMaterials
  refine foldlPreserve (fun r => r.name = room.name) _ _ room ?_ rfl
  intro a row ha
  refine foldlPreserve (fun r => r.name = room.name) _ _ a ?_ ha
  intro a2 c ha2
  dsimp only
  split
  · exact ha2
  · exact ha2

/-! The first-writer-wins invariant: once the Summary parse has stored a
materials block for a room and type, aggregation never replaces it. -/

/-- Every per-room materials map stored by the Summary scan has no
duplicate keys. -/
def innerNodup (mbr : List (String × List (String × MaterialsInfo))) : Prop :=
  ∀ r m, mapGet mbr r = some m → nodupKeys m

theorem innerNodup_nil : innerNodup [] := by
  intro r m hg
  simp [mapGet] at hg

theorem nodupKeys_nil {α : Type} : nodupKeys ([] : List (String × α)) := by
  simp [nodupKeys, keysOf]

theorem innerNodup_summaryMbr1 {mbr : List (String × List (String × MaterialsInfo))}
    {rc : Option String} (h : innerNodup mbr) : innerNodup (summaryMbr1 mbr rc) := by
  unfold summaryMbr1
  rcases rc with _ | s
  · exact h
  · intro r m hg
    rcases mapGet_insertNew_cases hg with hl | hr
    · exact h r m hl
    · subst hr
      exact nodupKeys_nil

theorem innerNodup_summaryMbr2 {mbr1 : List (String × List (String × MaterialsInfo))}
    {cr mc : Option String} (h : innerNodup mbr1) :
    innerNodup (summaryMbr2 mbr1 cr mc) := by
  unfold summaryMbr2
  rcases cr with _ | r
  · exact h
  · rcases mc with _ | s
    · exact h
    · dsimp only
      intro r' m hg
      rcases mapGet_mapSet_cases hg with hl | hr
      · exact h r' m hl
      · subst hr
        refine foldlPreserve nodupKeys _ _ _ ?_ ?_
        · intro a p ha
          exact nodupKeys_insertNew p.1 p.2 ha
        · rcases hx : mapGet mbr1 r with _ | m0
          · simpa [hx] using nodupKeys_nil
          · simpa [hx] using h r m0 hx

theorem innerNodup_summaryRowStep {st : SummaryState} {row : List Cell}
    (h : innerNodup st.mbr) : innerNodup (summaryRowStep st row).mbr := by
  unfold summaryRowStep
  dsimp only
  rcases hh : st.hdr with _ | idx <;> dsimp only <;>
    exact innerNodup_summaryMbr2 (innerNodup_summaryMbr1 h)

theorem parseSummarySheet_innerNodup (w : Workbook) :
    innerNodup (parseSummarySheet w).materialsByRoom := by
  unfold parseSummarySheet
  split
  · exact innerNodup_nil
  · dsimp only
    rename_i rowsL heq
    exact foldlPreserve (fun st => innerNodup st.mbr) summaryRowStep rowsL
      ⟨[], none, none, ⟨[], none, none, none⟩⟩
      (fun a b ha => innerNodup_summaryRowStep ha) innerNodup_nil

theorem mkSeededRoom_name {mbr : List (String × List (String × MaterialsInfo))}
    {n : String} : (mkSeededRoom mbr n).name = n := rfl

theorem mkSeededRoom_materials_some {mbr : List (String × List (String × MaterialsInfo))}
    {n t : String} {m : List (String × MaterialsInfo)} {b : MaterialsInfo}
    (hm : mapGet mbr n = some m) (hnd : nodupKeys m) (hget : mapGet m t = some b) :
    mapGet (mkSeededRoom mbr n).materials t = some b := by
  unfold mkSeededRoom
  dsimp only
  rw [hm]
  exact mapGet_foldl_mapSet_of_nodup hnd hget []

theorem sheetDispatch_name {sheetName : String} {rows : List (List Cell)}
    {room : RoomAggregation} : (sheetDispatch sheetName rows room).name = room.name := by
  unfold sheetDispatch
  split
  · exact parseCabinetStats_name
  · split
    · exact parseDetailItems_name
    · split
      · exact inlineMaterials_name
      · rfl

theorem sheetDispatch_materials_some {sheetName : String} {rows : List (List Cell)}
    {room : RoomAggregation} {t : String} {b : MaterialsInfo}
    (h : mapGet room.materials t = some b) :
    mapGet (sheetDispatch sheetName rows room).materials t = some b := by
  unfold sheetDispatch
  split
  · exact parseCabinetStats_materials_some h
  · split
    · exact parseDetailItems_materials_some h
    · split
      · exact inlineMaterials_materials_some h
      · exact h

theorem processSheet_keep {mbr : List (String × List (String × MaterialsInfo))}
    {rm : List (String × RoomAggregation)} {sheetName : String}
    {rows : List (List Cell)} {r t : String} {m : List (String × MaterialsInfo)}
    {b : MaterialsInfo}
    (hm : mapGet mbr r = some m) (hnd : nodupKeys m) (hget : mapGet m t = some b)
    (hP : ∀ p ∈ rm, (p : String × RoomAggregation).2.name = r →
      mapGet p.2.materials t = some b) :
    ∀ p ∈ processSheet mbr rm sheetName rows,
      (p : String × RoomAggregation).2.name = r → mapGet p.2.materials t = some b := by
  unfold processSheet
  split
  · exact hP
  · split
    · exact hP
    · dsimp only
      intro p hp hname
      rcases mem_mapSet_cases hp with hin | he
      · exact hP p hin hname
      · subst he
        dsimp only at hname ⊢
        rcases hr : mapGet rm (detectRoomName rows sheetName) with _ | r0 <;>
            rw [hr] at hname
        · have hrn : detectRoomName rows sheetName = r := by
            have h1 : (sheetDispatch sheetName rows
                (mkSeededRoom mbr (detectRoomName rows sheetName))).name =
                detectRoomName rows sheetName := by
              rw [sheetDispatch_name, mkSeededRoom_name]
            rw [h1] at hname
            exact hname
          rw [hrn]
          refine sheetDispatch_materials_some ?_
          exact mkSeededRoom_materials_some (hrn ▸ hm) hnd hget
        · have hn0 : r0.name = r := by
            rw [sheetDispatch_name] at hname
            exact hname
          exact sheetDispatch_materials_some (hP (_, r0) (mapGet_mem hr) hn0)

theorem aggregateRooms_keepsSummary {w : Workbook}
    {mbr : List (String × List (String × MaterialsInfo))} {r t : String}
    {m : List (String × MaterialsInfo)} {b : MaterialsInfo}
    (hm : mapGet mbr r = some m) (hnd : nodupKeys m) (hget : mapGet m t = some b) :
    ∀ room ∈ aggregateRooms w mbr, room.name = r → mapGet room.materials t = some b := by
  unfold aggregateRooms
  intro room hroom hname
  rw [List.mem_map] at hroom
  obtain ⟨p, hp, hpe⟩ := hroom
  have hfold := foldlPreserve
    (fun rm => ∀ q ∈ rm, (q : String × RoomAggregation).2.name = r →
      mapGet q.2.materials t = some b)
    (fun rm name =>
      match mapGet w name with
      | none => rm
      | some rows => processSheet mbr rm name rows)
    (w.map Prod.fst) [] ?_ ?_
  · exact hpe ▸ hfold p hp (by rw [hpe]; exact hname)
  · intro a name ha
    rcases hw : mapGet w name with _ | rows
    · simpa [hw] using ha
    · simpa [hw] using processSheet_keep hm hnd hget ha
  · intro q hq
    simp at hq

/-! Claims. -/

/-- C2: for every room and canonical type, at most one MaterialsBlock is
stored and the first writer wins: once the Summary sheet's parse has stored
a block for a room and type, no later aggregation step (stats placeholder,
detail placeholder or inline Carcass fallback) replaces it, so the Summary
version is the one attached to the aggregated room of that name. -/
theorem C2_materials_first_writer_wins (w : Workbook) (r t : String)
    (m : List (String × MaterialsInfo)) (b : MaterialsInfo) (room : RoomAggregation)
    (hm : mapGet (parseSummarySheet w).materialsByRoom r = some m)
    (hget : mapGet m t = some b)
    (hroom : room ∈ aggregateRooms w (parseSummarySheet w).materialsByRoom)
    (hname : room.name = r) :
    mapGet room.materials t = some b :=
  aggregateRooms_keepsSummary hm (parseSummarySheet_innerNodup w r m hm) hget
    room hroom hname

/-- A workbook whose Summary sheet provides materials for the kitchen's Base
Cabinets and whose detail sheet would install a placeholder for the same
room and type. -/
def wC2 : Workbook :=
  [("Summary",
    [[.str "Flat 402 - Kitchen"],
     [.str "Base Cabinets:\nCarcass: 18mm BWP"]]),
   ("Flat 402 - Kitchen Details",
    [[.str "Flat 402 - Kitchen"],
     [.str "SL", .str "DESCRIPTION"],
     [.str "1", .str "Base Unit"]])]

/-- The single aggregated room of wC2. -/
def wC2room : RoomAggregation :=
  (aggregateRooms wC2 (parseSummarySheet wC2).materialsByRoom).headD ⟨"", [], [], [], []⟩

theorem C2_witness :
    wC2room.name = "Flat 402 - Kitchen" ∧
    mapGet wC2room.materials "Base Cabinets" =
      some ⟨"Base Cabinets", [("Carcass", "18mm BWP")]⟩ := by
  refine ⟨rfl, ?_⟩
  refine C2_materials_first_writer_wins wC2 "Flat 402 - Kitchen" "Base Cabinets"
    [("Base Cabinets", ⟨"Base Cabinets", [("Carcass", "18mm BWP")]⟩)]
    ⟨"Base Cabinets", [("Carcass", "18mm BWP")]⟩ wC2room rfl rfl ?_ rfl
  have h : aggregateRooms wC2 (parseSummarySheet wC2).materialsByRoom = [wC2room] := rfl
  rw [h]
  exact List.mem_singleton.mpr rfl

/-- C4: in the financial finalizer, for a raw summary with unset discount
and both subtotal and totalPayable set, the finalized discount is subtotal
minus totalPayable exactly when the absolute difference exceeds 0.001, and
stays unset otherwise. -/
theorem C4_discount_derivation (f : SummaryFinancials) (s p : ℚ)
    (hd : f.discount = none) (hs : f.subtotal = some s) (hp : f.totalPayable = some p) :
    (finalizeFin f).discount =
      if (0.001 : ℚ) < |s - p| then some (s - p) else none := by
  unfold finalizeFin
  rw [hs]
  dsimp only
  split
  · simp only [hd, hs, hp]
    split <;> rfl
  · simp only [hd, hs, hp]
    split <;> simp [hd]

theorem C4_witness :
    (finalizeFin ⟨[], some 100000, some 92000, none⟩).discount = some 8000 ∧
    (finalizeFin ⟨[], some 100000, some 99999.9995, none⟩).discount = none := by
  constructor
  · have h := C4_discount_derivation ⟨[], some 100000, some 92000, none⟩
      100000 92000 rfl rfl rfl
    rw [h, if_pos (by norm_num)]
    norm_num
  · have h := C4_discount_derivation ⟨[], some 100000, some 99999.9995, none⟩
      100000 99999.9995 rfl rfl rfl
    have hdiff : (100000 : ℚ) - 99999.9995 = 0.0005 := by norm_num
    have habs : |(0.0005 : ℚ)| = 0.0005 := abs_of_pos (by norm_num)
    rw [h, hdiff, habs, if_neg (by norm_num)]

/-- C7: in the Summary financial header detection, a HARDWARE cell is meant
to map to accessories only when accessories is not already mapped; because
the code uses a JavaScript falsy check, an accessories column already mapped
at index 0 is treated as unmapped and HARDWARE overwrites it (first
conjunct, the bug), while a nonzero accessories index is preserved (second
conjunct). -/
theorem C7_hardware_falsy_zero_bug :
    detectHeader [Cell.str "ACCESS", Cell.str "ROOM", Cell.str "TOTAL",
        Cell.str "HARDWARE"] =
      some { room := 1, total := 2, accessories := some 3 } ∧
    detectHeader [Cell.str "ROOM", Cell.str "ACCESS", Cell.str "TOTAL",
        Cell.str "HARDWARE"] =
      some { room := 0, total := 2, accessories := some 1 } := by
  exact ⟨by decide, by decide⟩

/-- The hypothesis of the heading half of C5: none of the substring rules of
normalizeTypeName fires on the trimmed, lower-cased input. -/
def noNormRuleApplies (s : String) : Bool :=
  let lower := toLowerStr (jsTrim s)
  !(strIncl lower "base" || strIncl lower "wall" || strIncl lower "tall" ||
    strIncl lower "suspended" || strIncl lower "mid tall" || strIncl lower "open shelf" ||
    strIncl lower "panel" || strIncl lower "skirt" || strIncl lower "loft" ||
    strIncl lower "pooja" || strIncl lower "filler" || strIncl lower "hinged wardrobe" ||
    strIncl lower "sliding wardrobe" || strIncl lower "wardrobe")

/-- C5: the classifier is total and asymmetric between contexts: a heading
matching no substring rule is returned trimmed and verbatim by
normalizeTypeName, while a line-item description that classifyType cannot
classify makes the detail-row step drop the row entirely, leaving the room
aggregate unchanged. -/
theorem C5_classifier_totality :
    (∀ s : String, noNormRuleApplies s = true → normalizeTypeName s = jsTrim s) ∧
    (∀ (idx : DetailIdx) (room : RoomAggregation) (row : List Cell),
      classifyType (((getOpt (row.map cellStr) idx.descr).map jsTrim).getD "") = none →
      detailRowStep idx room row = room) := by
  constructor
  · intro s h
    unfold noNormRuleApplies at h
    simp only [Bool.not_eq_true', Bool.or_eq_false_iff] at h
    obtain ⟨⟨⟨⟨⟨⟨⟨⟨⟨⟨⟨⟨⟨h1, h2⟩, h3⟩, h4⟩, h5⟩, h6⟩, h7⟩, h8⟩, h9⟩, h10⟩,
      h11⟩, h12⟩, h13⟩, h14⟩ := h
    unfold normalizeTypeName
    simp [h1, h2, h3, h4, h5, h6, h7, h8, h9, h10, h11, h12, h13, h14]
  · intro idx room row h
    unfold detailRowStep
    dsimp only
    split
    · rfl
    · split
      · rfl
      · split
        · rfl
        · rename_i ty heq
          rw [h] at heq
          exact absurd heq (by simp)

/-- An empty room aggregate, used by concrete instantiations. -/
def emptyRoom : RoomAggregation := ⟨"", [], [], [], []⟩

theorem C5_witness :
    normalizeTypeName "Custom Bay Unit" = jsTrim "Custom Bay Unit" ∧
    detailRowStep ⟨0, -1, 1, -1, -1⟩ emptyRoom [Cell.str "1", Cell.str "Teak Console"] =
      emptyRoom :=
  ⟨C5_classifier_totality.1 "Custom Bay Unit" (by decide),
   C5_classifier_totality.2 ⟨0, -1, 1, -1, -1⟩ emptyRoom
     [Cell.str "1", Cell.str "Teak Console"] (by decide)⟩

theorem numTok_none_of_not_digit {c : Char} {rest : List Char}
    (h : c.isDigit = false) : numTok (c :: rest) = none := by
  unfold numTok
  simp [List.takeWhile, h]

theorem wScan_none_of_no_digit :
    ∀ {cs : List Char}, cs.all (fun c => !c.isDigit) = true → wScan cs = none := by
  intro cs
  induction cs with
  | nil => intro _; rfl
  | cons c rest ih =>
    intro h
    simp only [List.all_cons, Bool.and_eq_true, Bool.not_eq_true'] at h
    obtain ⟨hc, hrest⟩ := h
    unfold wScan
    rw [numTok_none_of_not_digit hc]
    exact ih (by simpa using hrest)

theorem numScan_none_of_no_digit :
    ∀ {cs : List Char}, cs.all (fun c => !c.isDigit) = true → numScan cs = none := by
  intro cs
  induction cs with
  | nil => intro _; rfl
  | cons c rest ih =>
    intro h
    simp only [List.all_cons, Bool.and_eq_true, Bool.not_eq_true'] at h
    obtain ⟨hc, hrest⟩ := h
    unfold numScan
    rw [numTok_none_of_not_digit hc]
    exact ih (by simpa using hrest)

/-- C9: a type's dimensionAggregate serializes as absent not only when no
sized item was recorded but also when the accumulated width sum is exactly
zero, so a genuine zero total is indistinguishable from absence; and a size
string without digits contributes exactly zero width. -/
theorem C9_zero_width_collapses_to_null :
    (∀ (room : RoomAggregation) (t : String),
      (mkTypeEntry room t).dimensionAggregate = none ↔
        (mapGet room.widthTotals t = none ∨ mapGet room.widthTotals t = some 0)) ∧
    (∀ s : String, s.toList.all (fun c => !c.isDigit) = true → extractWidth s = 0) := by
  constructor
  · intro room t
    unfold mkTypeEntry
    dsimp only
    rcases h : mapGet room.widthTotals t with _ | q
    · simp
    · by_cases hq : q = 0 <;> simp [hq]
  · intro s h
    unfold extractWidth
    rw [wScan_none_of_no_digit h, numScan_none_of_no_digit h]

/-- A room whose width total for type X is exactly zero. -/
def roomC9 : RoomAggregation := ⟨"R", [], [], [], [("X", 0)]⟩

theorem C9_witness :
    (mkTypeEntry roomC9 "X").dimensionAggregate = none ∧ extractWidth "N/A" = 0 :=
  ⟨(C9_zero_width_collapses_to_null.1 roomC9 "X").mpr (Or.inr rfl),
   C9_zero_width_collapses_to_null.2 "N/A" (by decide)⟩

theorem detailRowStep_no_sl {idx : DetailIdx} (hsl : idx.sl = -1)
    (room : RoomAggregation) (row : List Cell) : detailRowStep idx room row = room := by
  unfold detailRowStep
  rw [hsl]
  dsimp only
  have hget : getOpt (row.map cellStr) (-1) = none := by
    unfold getOpt
    norm_num
  rw [hget]
  rfl

theorem foldl_fixed {α β : Type} (f : α → β → α) (l : List β) (init : α)
    (h : ∀ a b, f a b = a) : l.foldl f init = init := by
  induction l generalizing init with
  | nil => rfl
  | cons x rest ih => rw [List.foldl_cons, h init x]; exact ih init

/-- C10: a detail sheet whose located header row has a DESCRIPTION cell but
no cell containing SL uses serial index -1, so every data row is skipped and
the sheet leaves the room aggregate untouched. -/
theorem C10_missing_sl_skips_all_rows (rows : List (List Cell))
    (room : RoomAggregation) (h : Nat)
    (hh : rows.findIdx? hasDescriptionCell = some h)
    (hsl : findIdxJs (fun v => strIncl (toUpperStr v) "SL")
      ((rows[h]?.getD []).map cellStr) = -1) :
    parseDetailItems rows room = room := by
  unfold parseDetailItems
  rw [hh]
  dsimp only
  exact foldl_fixed _ _ room (fun a b => detailRowStep_no_sl hsl a b)

theorem C10_witness :
    parseDetailItems [[Cell.str "DESCRIPTION"], [Cell.str "1", Cell.str "Base Unit"]]
      emptyRoom = emptyRoom :=
  C10_missing_sl_skips_all_rows _ emptyRoom 0 rfl (by decide)

theorem mem_addKey {l : List String} {x k : String} : k ∈ addKey l x ↔ k ∈ l ∨ k = x := by
  unfold addKey
  split
  · rename_i hx
    constructor
    · exact Or.inl
    · intro h
      rcases h with h | h
      · exact h
      · exact h ▸ hx
  · simp [List.mem_append]

theorem mem_foldl_addKey {l : List String} {k : String} :
    ∀ {init : List String}, k ∈ l.foldl addKey init ↔ k ∈ init ∨ k ∈ l := by
  induction l with
  | nil => intro init; simp
  | cons x rest ih =>
    intro init
    rw [List.foldl_cons, ih, mem_addKey, List.mem_cons]
    tauto

theorem nodup_addKey {l : List String} (x : String) (h : l.Nodup) :
    (addKey l x).Nodup := by
  unfold addKey
  split
  · exact h
  · rename_i hx
    exact h.append (List.nodup_singleton x) (by simpa [List.disjoint_singleton] using hx)

theorem nodup_foldl_addKey {l init : List String} (h : init.Nodup) :
    (l.foldl addKey init).Nodup :=
  foldlPreserve (fun a => a.Nodup) addKey l init (fun _ b hb => nodup_addKey b hb) h

/-- A workbook whose stats sheet holds one canonical heading and one
unmatched mixed-case heading, so the room's type keys are the title-case
canonical name Base Cabinets and the verbatim lower-case heading
accessories unit. -/
def wC3 : Workbook :=
  [("K2 Sq.Ft",
    [[.str "CABINET TYPE", .str "TOTAL"],
     [.str "Base Unit", .str "5400"],
     [.str "accessories unit", .str "1200"]])]

/-- The type keys of the first room of the converted wC3. -/
def wC3types : List String :=
  match POSTmodel wC3 with
  | .ok p => (p.rooms.headD ⟨"", []⟩).types.map TypeEntry.type
  | .error _ => []

/-- C3 counterexample: the program sorts the reachable key pair
accessories unit and Base Cabinets by the localeCompare collation, which
puts accessories unit first (case-insensitive primary order); that output
is not ordered lexicographically, because in code-point order
Base Cabinets comes first. -/
theorem C3_counterexample :
    wC3types = ["accessories unit", "Base Cabinets"] ∧
    ¬ List.Sorted (fun a b : String => a.toList ≤ b.toList) wC3types := by
  have he : wC3types = ["accessories unit", "Base Cabinets"] := rfl
  refine ⟨he, ?_⟩
  rw [he]
  decide

/-- C3 amended: for every room, the type entries carry exactly the union of
the type keys of the materials, stats and item mappings — no key lost, none
invented — and they are ordered deterministically by the localeCompare
collation rather than insertion order; on uniform-case keys such as the
canonical type names this coincides with lexicographic order (final
conjunct, keys inserted out of order). -/
theorem C3_amended :
    (∀ (room : RoomAggregation) (k : String),
      (k ∈ (formatRoom room).types.map TypeEntry.type) ↔
        ((mapGet room.materials k).isSome = true ∨ (mapGet room.stats k).isSome = true ∨
          (mapGet room.items k).isSome = true)) ∧
    (∀ room : RoomAggregation,
      List.Sorted collLe ((formatRoom room).types.map TypeEntry.type) ∧
      ((formatRoom room).types.map TypeEntry.type).Nodup) ∧
    sortedTypeKeys ⟨"R", [("Wall Cabinets", ⟨"Wall Cabinets", []⟩),
        ("Base Cabinets", ⟨"Base Cabinets", []⟩)],
      [("Lofts", ⟨none, none, none⟩)], [], []⟩ =
      ["Base Cabinets", "Lofts", "Wall Cabinets"] := by
  have htypes : ∀ room : RoomAggregation,
      (formatRoom room).types.map TypeEntry.type = sortedTypeKeys room := by
    intro room
    unfold formatRoom
    dsimp only
    rw [List.map_map]
    have hcomp : (TypeEntry.type ∘ mkTypeEntry room) = id := by
      funext t
      rfl
    rw [hcomp, List.map_id]
  refine ⟨?_, ?_, by decide⟩
  · intro room k
    rw [htypes room]
    unfold sortedTypeKeys
    rw [(List.perm_insertionSort _ _).mem_iff]
    unfold typeKeySet
    rw [mem_foldl_addKey]
    simp only [List.not_mem_nil, false_or, List.mem_append]
    rw [show room.materials.map Prod.fst = keysOf room.materials from rfl,
      show room.stats.map Prod.fst = keysOf room.stats from rfl,
      show room.items.map Prod.fst = keysOf room.items from rfl,
      ← mapGet_isSome_iff_mem, ← mapGet_isSome_iff_mem, ← mapGet_isSome_iff_mem]
    tauto
  · intro room
    rw [htypes room]
    unfold sortedTypeKeys
    exact ⟨List.sorted_insertionSort collLe (typeKeySet room),
      ((List.perm_insertionSort _ _).nodup_iff).mpr (nodup_foldl_addKey List.nodup_nil)⟩

/-- A room whose unknown type keys arrive in reverse alphabetical order
across different mappings. -/
def roomC3 : RoomAggregation :=
  ⟨"R", [("Delta Custom", ⟨"Delta Custom", []⟩)],
    [("Alpha Custom", ⟨none, none, none⟩)], [], []⟩

theorem C3_witness :
    ("Alpha Custom" ∈ (formatRoom roomC3).types.map TypeEntry.type) ∧
    List.Sorted collLe ((formatRoom roomC3).types.map TypeEntry.type) :=
  ⟨(C3_amended.1 roomC3 "Alpha Custom").mpr (Or.inr (Or.inl rfl)),
   (C3_amended.2.1 roomC3).1⟩

/-- The width preference exactly as the claim words it: a number must be
immediately followed by the letter w or W, with no intervening whitespace
(unlike the implementation's pattern, which allows whitespace between). -/
def claimImmediateWidth : List Char → Option ℚ
  | [] => none
  | c :: rest =>
    match numTok (c :: rest) with
    | some (q, after) =>
      match after with
      | 'w' :: _ => some q
      | 'W' :: _ => some q
      | _ => claimImmediateWidth rest
    | none => claimImmediateWidth rest

/-- The width-extraction rule as the claim states it: prefer a number
immediately followed by w or W, else the first number in the string,
else zero. -/
def claimWidthRule (size : String) : ℚ :=
  match claimImmediateWidth size.toList with
  | some q => q
  | none =>
    match numScan size.toList with
    | some q => q
    | none => 0

/-- C6 counterexample: on the size string 100x200 W there is no number
immediately followed by w or W, so the claimed rule falls back to the first
number 100, but the implementation's pattern tolerates whitespace before the
W and returns 200. -/
theorem C6_counterexample :
    extractWidth "100x200 W" = 200 ∧ claimWidthRule "100x200 W" = 100 ∧
    extractWidth "100x200 W" ≠ claimWidthRule "100x200 W" := by
  refine ⟨by decide, by decide, by decide⟩

/-- C6 amended: the detail row of the stated scenario is filed under
Sliding Wardrobes with its width aggregate increased by 600; in general
width extraction prefers a number followed, possibly after whitespace, by
the letter w or W, else takes the first number found in the string, else
contributes zero. -/
theorem C6_amended :
    (∀ (s : String) (q : ℚ), wScan s.toList = some q → extractWidth s = q) ∧
    (∀ (s : String) (q : ℚ), wScan s.toList = none → numScan s.toList = some q →
      extractWidth s = q) ∧
    (∀ s : String, wScan s.toList = none → numScan s.toList = none →
      extractWidth s = 0) ∧
    (mapGet (detailRowStep ⟨0, 1, 2, 3, 4⟩ emptyRoom
        [Cell.str "7", Cell.str "W1", Cell.str "Sliding Wardrobe - 2 Door",
         Cell.str "600Wx2100H", Cell.str "85000"]).items "Sliding Wardrobes" =
      some [⟨"W1", "Sliding Wardrobe - 2 Door", some "600Wx2100H", some 85000⟩]) ∧
    (mapGet (detailRowStep ⟨0, 1, 2, 3, 4⟩ emptyRoom
        [Cell.str "7", Cell.str "W1", Cell.str "Sliding Wardrobe - 2 Door",
         Cell.str "600Wx2100H", Cell.str "85000"]).widthTotals "Sliding Wardrobes" =
      some 600) ∧
    extractWidth "600 W" = 600 ∧ extractWidth "abc 250x90" = 250 ∧
    extractWidth "N/A" = 0 := by
  refine ⟨?_, ?_, ?_, ?_, ?_, by decide, by decide, by decide⟩
  · intro s q h
    unfold extractWidth
    rw [h]
  · intro s q h1 h2
    unfold extractWidth
    rw [h1, h2]
  · intro s h1 h2
    unfold extractWidth
    rw [h1, h2]
  · decide
  · have h : mapGet (detailRowStep ⟨0, 1, 2, 3, 4⟩ emptyRoom
        [Cell.str "7", Cell.str "W1", Cell.str "Sliding Wardrobe - 2 Door",
         Cell.str "600Wx2100H", Cell.str "85000"]).widthTotals "Sliding Wardrobes" =
        some ((0 : ℚ) + 600) := rfl
    rw [h]
    norm_num

theorem C6_witness : extractWidth "600Wx2100H" = 600 ∧ extractWidth "x 75" = 75 :=
  ⟨C6_amended.1 "600Wx2100H" 600 (by decide),
   C6_amended.2.1 "x 75" 75 (by decide) (by decide)⟩

/-- C8: the conversion fails with a fatal error exactly when the workbook
has no sheets or the aggregation produced zero rooms; a stats or detail
sheet with no recognizable header row is skipped silently, leaving the room
aggregate untouched, and the conversion still succeeds on whatever else was
recognized. -/
theorem C8_fatal_iff (w : Workbook) :
    ((∃ e, POSTmodel w = Except.error e) ↔
      (w.isEmpty = true ∨
        aggregateRooms w (parseSummarySheet w).materialsByRoom = [])) ∧
    (∀ (rows : List (List Cell)) (room : RoomAggregation),
      rows.findIdx? hasCabinetTypeCell = none → parseCabinetStats rows room = room) ∧
    (∀ (rows : List (List Cell)) (room : RoomAggregation),
      rows.findIdx? hasDescriptionCell = none → parseDetailItems rows room = room) := by
  refine ⟨?_, ?_, ?_⟩
  · unfold POSTmodel
    by_cases h1 : w.isEmpty
    · simp [h1]
    · simp only [h1, Bool.false_eq_true, if_false]
      by_cases h2 : aggregateRooms w (parseSummarySheet w).materialsByRoom = []
      · simp [h2]
      · simp [h2, List.isEmpty_iff]
  · intro rows room h
    unfold parseCabinetStats
    rw [h]
  · intro rows room h
    unfold parseDetailItems
    rw [h]

theorem C8_witness :
    (∃ e, POSTmodel [] = Except.error e) ∧
    parseCabinetStats [[Cell.str "no recognizable header"]] emptyRoom = emptyRoom ∧
    parseDetailItems [[Cell.str "no recognizable header"]] emptyRoom = emptyRoom :=
  ⟨(C8_fatal_iff []).1.mpr (Or.inl rfl),
   (C8_fatal_iff []).2.1 [[Cell.str "no recognizable header"]] emptyRoom (by decide),
   (C8_fatal_iff []).2.2 [[Cell.str "no recognizable header"]] emptyRoom (by decide)⟩

/-- A workbook whose single detail sheet has an item with an empty PRICE
cell, so the item's price is never determinable. -/
def wC1 : Workbook :=
  [("K1 Details",
    [[.str "SL", .str "CODE", .str "DESCRIPTION", .str "SIZE", .str "PRICE"],
     [.str "1", .str "C1", .str "Base Unit", .str "600W", .str ""]])]

/-- The serialized JSON of the first item of the first type of the first
room of the converted wC1. -/
def wC1ItemJson : Option Json :=
  match POSTmodel wC1 with
  | .ok p =>
    (((((jField (serializeResponse p) "rooms").bind (fun j => jAt j 0)).bind
      (fun j => jField j "types")).bind (fun j => jAt j 0)).bind
      (fun j => jField j "items")).bind (fun j => jAt j 0)
  | .error _ => none

/-- C1 counterexample: the conversion succeeds and the item exists in the
response (its description key is present), yet its price member is an
omitted key, not a present null, refuting the claim that every
never-determinable numeric field serializes as null with its key present. -/
theorem C1_counterexample :
    (wC1ItemJson.bind (fun j => jField j "price") = none) ∧
    (wC1ItemJson.bind (fun j => jField j "description") =
      some (Json.jstr "Base Unit")) :=
  ⟨rfl, rfl⟩

/-- C1 amended: the three stats members always serialize with their key
present, as null exactly when the value was never determined and as the
number otherwise (so a parsed 0 stays 0, since a cell containing 0 parses
to the number 0); an item's price with no parsable source serializes as an
omitted key, never as null and never as 0. -/
theorem C1_amended :
    (∀ e : TypeEntry,
      jField (serializeStats e.stats) "areaSqFt" = some (serializeOptNum e.stats.areaSqFt) ∧
      jField (serializeStats e.stats) "costPerSqFt" =
        some (serializeOptNum e.stats.costPerSqFt) ∧
      jField (serializeStats e.stats) "total" = some (serializeOptNum e.stats.total)) ∧
    serializeOptNum none = Json.jnull ∧
    (∀ q : ℚ, serializeOptNum (some q) = Json.jnum q) ∧
    (∀ it : DetailItem, jField (serializeItem it) "price" = it.price.map Json.jnum) ∧
    toNumber (some (Cell.str "0")) = some 0 := by
  refine ⟨?_, rfl, fun q => rfl, ?_, rfl⟩
  · intro e
    exact ⟨rfl, rfl, rfl⟩
  · intro it
    rcases it with ⟨c, d, s, p⟩
    rcases s with _ | s <;> rcases p with _ | q <;> rfl

theorem C1_witness :
    jField (serializeItem ⟨"C1", "Base Unit", some "600W", none⟩) "price" = none ∧
    jField (serializeStats ⟨some 0, none, none⟩) "areaSqFt" = some (Json.jnum 0) :=
  ⟨C1_amended.2.2.2.1 ⟨"C1", "Base Unit", some "600W", none⟩,
   (C1_amended.1 ⟨"t", "l", [], ⟨some 0, none, none⟩, none, []⟩).1⟩
